import Mathlib

/-!
Verification of the Upload Pipeline of this repository
(frontend/src/components/upload/FileUpload.tsx): validation gate,
progress-tracked transfer engine, result aggregation and error
classification, shallowly embedded in Lean 4.

Machine integers (byte sizes, HTTP statuses, percentages) are modelled
as `Nat`; the response body handed to `JSON.parse` is modelled
abstractly as either a value that parses to the structured
acknowledgment or a malformed body carrying the parse error's message.
-/

namespace UploadPipeline

/-- The structure of `file_info` in the server acknowledgment
(interface `FileInfo` in FileUpload.tsx). -/
structure FileInfo where
  filename : String
  original_name : String
  size : Nat
  extension : String
  upload_time : String
  file_path : String
  status : String
deriving Repr, DecidableEq

/-- The structured acknowledgment the server returns
(interface `UploadResponse` in FileUpload.tsx). -/
structure UploadResponse where
  success : Bool
  message : String
  file_info : FileInfo
  project_id : String
deriving Repr, DecidableEq

/-- One entry of the `uploadedFiles` list: the spread of
`response.file_info` together with `project_id`
(`{ ...response.file_info, project_id: response.project_id }`). -/
structure UploadedFile where
  info : FileInfo
  project_id : String
deriving Repr, DecidableEq

/-! ## Validation gate (`supportedExtensions`, `maxFileSize`, `beforeUpload`) -/

/-- The allow-list of file extensions, verbatim from FileUpload.tsx. -/
def supportedExtensions : List String :=
  [".cpp", ".hpp", ".h", ".c", ".cc", ".cxx", ".zip", ".tar.gz", ".tgz"]

/-- The size ceiling in bytes: `50 * 1024 * 1024` (50 MiB). -/
def maxFileSize : Nat := 50 * 1024 * 1024

/-- JavaScript `String.prototype.split` with a one-character separator,
on the character list of the string: splits at every occurrence of `c`,
keeping empty segments, and yields `[l]` when `c` does not occur
(so `[[]]` on the empty string, as in JS). -/
def splitOnChar (c : Char) : List Char → List (List Char)
  | [] => [[]]
  | x :: xs =>
    let r := splitOnChar c xs
    if x = c then [] :: r
    else
      match r with
      | [] => [[x]]
      | h :: t => (x :: h) :: t

/-- The extension derivation
`'.' + file.name.split('.').pop()?.toLowerCase()` from `beforeUpload`:
a dot followed by the lower-cased last `.`-separated segment of the
display name. -/
def fileExtension (name : String) : String :=
  String.mk ('.' :: ((splitOnChar '.' name.data).getLastD []).map Char.toLower)

/-- Result of the pre-upload validation, distinguished by which check
in `beforeUpload` fired (the source reports each with a distinct
`message.error` and returns `false`). -/
inductive ValidationResult where
  | ok
  | rejectedUnsupportedType (ext : String)
  | rejectedTooLarge
deriving Repr, DecidableEq

/-- Definition of `beforeUpload` from FileUpload.tsx: first the extension membership
check (`!supportedExtensions.includes(fileExtension)`), then the size
ceiling (`file.size > maxFileSize`), short-circuiting on the first
failure. -/
def beforeUpload (name : String) (size : Nat) : ValidationResult :=
  let ext := fileExtension name
  if supportedExtensions.contains ext = false then
    .rejectedUnsupportedType ext
  else if maxFileSize < size then
    .rejectedTooLarge
  else
    .ok

/-! ## Transfer engine (`customUpload`) -/

/-- The spec's closed error taxonomy. The source has no explicit kind
field; each kind below annotates one distinct terminal branch of
`customUpload`, following the taxonomy of the spec's Error Classifier:
the non-200 branch and the `success:false` branch are `serverRejected`,
the `JSON.parse` failure branch is `malformedAcknowledgment`, the XHR
`error` listener and the synchronous `catch` are `transportFailure`,
and a `beforeUpload` rejection is `policyRejected`. -/
inductive ErrorKind where
  | policyRejected
  | transportFailure
  | serverRejected
  | malformedAcknowledgment
deriving Repr, DecidableEq

/-- A classified failure: taxonomy kind plus the message of the
`Error` object handed to `onError` in the source. -/
structure ClassifiedError where
  kind : ErrorKind
  message : String
deriving Repr, DecidableEq

/-- The response text of a completed request, as seen through
`JSON.parse`: either it parses as the structured acknowledgment, or
parsing throws with some message. -/
inductive ResponseBody where
  | ack (r : UploadResponse)
  | malformed (parseErrorMessage : String)
deriving Repr, DecidableEq

/-- The terminal resolution of one transfer: `onSuccess(response)` or
`onError(new Error(...))`. -/
inductive TransferOutcome where
  | resolvedAck (r : UploadResponse)
  | resolvedError (e : ClassifiedError)
deriving Repr, DecidableEq

/-- The message built in the non-200 branch of the `load` listener:
`` `上传失败: HTTP ${xhr.status}` `` ("upload failed: HTTP {status}"). -/
def httpFailureMessage (status : Nat) : String :=
  "上传失败: HTTP " ++ toString status

/-- The message of the XHR `error` listener:
"网络错误，上传失败" ("network error, upload failed"). -/
def networkErrorMessage : String := "网络错误，上传失败"

/-- The append `setUploadedFiles(prev => [...prev, { ...response.file_info,
project_id: response.project_id }])`: one record built from the
acknowledgment is added to the end of the list. -/
def appendRecord (r : UploadResponse) (files : List UploadedFile) :
    List UploadedFile :=
  files ++ [{ info := r.file_info, project_id := r.project_id }]

/-- The `load` listener of `customUpload`: if `xhr.status === 200`,
parse the body; on a parsed acknowledgment with `success` true, resolve
to the acknowledgment and append a record; with `success` false, the
thrown `Error(response.message)` reaches `onError`; on a parse failure
the parse error reaches `onError`; on any status other than 200,
resolve to the HTTP failure message. Returns the resolution together
with the updated `uploadedFiles` list. -/
def handleLoad (status : Nat) (body : ResponseBody)
    (files : List UploadedFile) : TransferOutcome × List UploadedFile :=
  if status = 200 then
    match body with
    | .ack r =>
      if r.success then
        (.resolvedAck r, appendRecord r files)
      else
        (.resolvedError ⟨.serverRejected, r.message⟩, files)
    | .malformed msg =>
      (.resolvedError ⟨.malformedAcknowledgment, msg⟩, files)
  else
    (.resolvedError ⟨.serverRejected, httpFailureMessage status⟩, files)

/-- One underlying XHR `progress` event. -/
structure ProgressEvent where
  lengthComputable : Bool
  loaded : Nat
  total : Nat
deriving Repr, DecidableEq

/-- The percentage `Math.round((event.loaded / event.total) * 100)` on
exact arithmetic: for nonnegative `x`, `Math.round x = ⌊x + 1/2⌋`, and
`⌊100·l/t + 1/2⌋ = (200·l + t) / (2·t)` in natural division. -/
def jsRound100 (loaded total : Nat) : Nat :=
  (200 * loaded + total) / (2 * total)

/-- The `progress` listener: emits `round(loaded/total*100)` when
`event.lengthComputable` holds and nothing otherwise. -/
def handleProgress (e : ProgressEvent) : Option Nat :=
  if e.lengthComputable then some (jsRound100 e.loaded e.total) else none

/-- The terminal stimulus that ends one transfer: a completed request
(`load` with a status and body), a transport failure (`error`
listener), or a synchronous exception thrown before `send` returned
(the `catch` block). -/
inductive TerminalKind where
  | load (status : Nat) (body : ResponseBody)
  | transportError
  | syncException (msg : String)
deriving Repr, DecidableEq

/-- The resolution and resulting file list for each terminal stimulus:
`load` runs the `load` listener; the `error` listener resolves to the
network-error message; the `catch` block resolves to the thrown
exception's message. Only the `load` listener can touch the file
list. -/
def runTerminal (tk : TerminalKind) (files : List UploadedFile) :
    TransferOutcome × List UploadedFile :=
  match tk with
  | .load status body => handleLoad status body files
  | .transportError =>
    (.resolvedError ⟨.transportFailure, networkErrorMessage⟩, files)
  | .syncException msg =>
    (.resolvedError ⟨.transportFailure, msg⟩, files)

/-- One transfer as observed from outside: the underlying progress
events in delivery order, then exactly one terminal stimulus. -/
structure TransferTrace where
  progressEvents : List ProgressEvent
  terminal : TerminalKind
deriving Repr, DecidableEq

/-- The percentages handed to `onProgress` during one transfer, in
order: one per underlying progress event with a computable length. -/
def progressPercents (tr : TransferTrace) : List Nat :=
  tr.progressEvents.filterMap handleProgress

/-- An event delivered to the caller: a progress callback or the
single terminal resolution. -/
inductive EmittedEvent where
  | progress (percent : Nat)
  | terminalSuccess (r : UploadResponse)
  | terminalFailure (e : ClassifiedError)
deriving Repr, DecidableEq

/-- Whether an emitted event is terminal. -/
def EmittedEvent.isTerminal : EmittedEvent → Bool
  | .progress _ => false
  | .terminalSuccess _ => true
  | .terminalFailure _ => true

/-- The terminal event of a trace, as delivered to the caller. -/
def terminalEvent (tk : TerminalKind) (files : List UploadedFile) :
    EmittedEvent :=
  match (runTerminal tk files).1 with
  | .resolvedAck r => .terminalSuccess r
  | .resolvedError e => .terminalFailure e

/-- The full sequence of caller-visible events of one transfer: the
progress callbacks in order, then the one terminal resolution. -/
def emittedEvents (tr : TransferTrace) (files : List UploadedFile) :
    List EmittedEvent :=
  (tr.progressEvents.filterMap
    fun e => (handleProgress e).map EmittedEvent.progress)
  ++ [terminalEvent tr.terminal files]

/-! ## Submission pipeline and engine state -/

/-- Result of submitting one artifact: rejected by `beforeUpload`
(no network activity), or transferred with some resolution. -/
inductive SubmitResult where
  | policyRejected (v : ValidationResult)
  | transferred (out : TransferOutcome)
deriving Repr, DecidableEq

/-- The whole pipeline for one artifact: `beforeUpload` gates the
transfer; on rejection `customRequest` never runs and the file list is
untouched; on acceptance the transfer runs to its terminal
stimulus. -/
def submitArtifact (name : String) (size : Nat) (tk : TerminalKind)
    (files : List UploadedFile) : SubmitResult × List UploadedFile :=
  match beforeUpload name size with
  | .ok =>
    let (out, fs) := runTerminal tk files
    (.transferred out, fs)
  | v => (.policyRejected v, files)

/-- Whether a submission result is a failure of any kind (policy
rejection or any error resolution). -/
def isFailureResult : SubmitResult → Bool
  | .transferred (.resolvedAck _) => false
  | .transferred (.resolvedError _) => true
  | .policyRejected _ => true

/-- The client-visible state of the upload component: the three
`useState` hooks `uploading`, `uploadProgress`, `uploadedFiles`. -/
structure EngineState where
  uploading : Bool
  uploadProgress : Nat
  uploadedFiles : List UploadedFile
deriving Repr, DecidableEq

/-- The start of `customUpload`: `setUploading(true);
setUploadProgress(0)` before anything else runs. -/
def startTransfer (s : EngineState) : EngineState :=
  { s with uploading := true, uploadProgress := 0 }

/-- A progress tick: `setUploadProgress(percent)` when the length is
computable, no state change otherwise. -/
def stepProgress (s : EngineState) (e : ProgressEvent) : EngineState :=
  match handleProgress e with
  | some p => { s with uploadProgress := p }
  | none => s

/-- A terminal stimulus: each of the three terminal handlers of
`customUpload` ends with `setUploading(false);
setUploadProgress(0)`. -/
def stepTerminal (s : EngineState) (tk : TerminalKind) :
    EngineState × TransferOutcome :=
  let (out, fs) := runTerminal tk s.uploadedFiles
  ({ uploading := false, uploadProgress := 0, uploadedFiles := fs }, out)

/-! ## Result aggregator (`removeFile`) -/

/-- JavaScript `Array.prototype.filter` with an index-aware callback,
threading the running index. -/
def filterIdx (p : Nat → UploadedFile → Bool) :
    Nat → List UploadedFile → List UploadedFile
  | _, [] => []
  | i, x :: xs =>
    if p i x then x :: filterIdx p (i + 1) xs else filterIdx p (i + 1) xs

/-- Definition of `removeFile` from FileUpload.tsx:
`setUploadedFiles(prev => prev.filter((_, i) => i !== index))`. -/
def removeFile (files : List UploadedFile) (index : Nat) :
    List UploadedFile :=
  filterIdx (fun i _ => i != index) 0 files

/-! ## Sample values for concrete evaluations -/

/-- A sample `file_info` payload. -/
def sampleFileInfo : FileInfo :=
  { filename := "stored_main.cpp", original_name := "main.cpp",
    size := 1024, extension := ".cpp",
    upload_time := "2024-01-01T00:00:00", file_path := "uploads/stored_main.cpp",
    status := "uploaded" }

/-- A sample acknowledgment with `success` true. -/
def sampleAck : UploadResponse :=
  { success := true, message := "upload ok",
    file_info := sampleFileInfo, project_id := "p1" }

/-- A sample acknowledgment with `success` false. -/
def sampleFailAck : UploadResponse :=
  { success := false, message := "quota exceeded",
    file_info := sampleFileInfo, project_id := "p2" }

/-- A sample aggregator state of three records. -/
def sampleFiles : List UploadedFile :=
  [{ info := sampleFileInfo, project_id := "p1" },
   { info := sampleFileInfo, project_id := "p2" },
   { info := sampleFileInfo, project_id := "p3" }]

/-- A sample transfer trace: two computable progress ticks around one
tick without a computable length, ending in a completed request. -/
def sampleTrace : TransferTrace :=
  { progressEvents :=
      [{ lengthComputable := true, loaded := 10, total := 100 },
       { lengthComputable := false, loaded := 0, total := 0 },
       { lengthComputable := true, loaded := 100, total := 100 }],
    terminal := .load 200 (.ack sampleAck) }

/-! ## Helper lemmas -/

theorem getLastD_eq_of_ne_nil {α : Type} {l : List α} (h : l ≠ []) (d₁ d₂ : α) :
    l.getLastD d₁ = l.getLastD d₂ := by
  cases l with
  | nil => exact absurd rfl h
  | cons a l => rw [List.getLastD_cons, List.getLastD_cons]

theorem splitOnChar_ne_nil (c : Char) (l : List Char) : splitOnChar c l ≠ [] := by
  cases l with
  | nil => simp [splitOnChar]
  | cons x xs =>
    simp only [splitOnChar]
    split
    · simp
    · split <;> simp

theorem splitOnChar_of_not_mem {c : Char} {l : List Char} (h : c ∉ l) :
    splitOnChar c l = [l] := by
  induction l with
  | nil => rfl
  | cons x xs ih =>
    have hx : ¬ x = c := fun e => h (e ▸ List.mem_cons_self x xs)
    have hxs : c ∉ xs := fun m => h (List.mem_cons_of_mem _ m)
    simp [splitOnChar, hx, ih hxs]

theorem two_le_length_splitOnChar {c : Char} {l : List Char} (h : c ∈ l) :
    2 ≤ (splitOnChar c l).length := by
  induction l with
  | nil => cases h
  | cons x xs ih =>
    by_cases hx : x = c
    · have h1 : 0 < (splitOnChar c xs).length :=
        List.length_pos.mpr (splitOnChar_ne_nil c xs)
      simp only [splitOnChar, if_pos hx, List.length_cons]
      omega
    · have hxs : c ∈ xs := by
        rcases List.mem_cons.mp h with h1 | h1
        · exact absurd h1.symm hx
        · exact h1
      have h2 := ih hxs
      simp only [splitOnChar, if_neg hx]
      cases hr : splitOnChar c xs with
      | nil => exact absurd hr (splitOnChar_ne_nil c xs)
      | cons hh tt =>
        rw [hr] at h2
        simp only [List.length_cons] at h2 ⊢
        omega

theorem getLastD_splitOnChar_append (c : Char) (l₁ l₂ : List Char)
    (d : List Char) :
    (splitOnChar c (l₁ ++ c :: l₂)).getLastD d =
      (splitOnChar c l₂).getLastD d := by
  induction l₁ with
  | nil =>
    have hstep : splitOnChar c (c :: l₂) = [] :: splitOnChar c l₂ := by
      simp [splitOnChar]
    rw [List.nil_append, hstep, List.getLastD_cons]
    exact getLastD_eq_of_ne_nil (splitOnChar_ne_nil c l₂) [] d
  | cons x l₁ ih =>
    by_cases hx : x = c
    · subst hx
      have hstep : splitOnChar x (x :: (l₁ ++ x :: l₂)) =
          [] :: splitOnChar x (l₁ ++ x :: l₂) := by
        simp [splitOnChar]
      rw [List.cons_append, hstep, List.getLastD_cons]
      exact (getLastD_eq_of_ne_nil (splitOnChar_ne_nil _ _) [] d).trans ih
    · have hmem : c ∈ l₁ ++ c :: l₂ :=
        List.mem_append_right _ (List.mem_cons_self c l₂)
      have h2 := two_le_length_splitOnChar hmem
      simp only [List.cons_append, splitOnChar, if_neg hx]
      cases hr : splitOnChar c (l₁ ++ c :: l₂) with
      | nil => exact absurd hr (splitOnChar_ne_nil _ _)
      | cons hh tt =>
        rw [hr] at h2 ih
        have htt : tt ≠ [] := by
          intro e
          subst e
          simp at h2
        rw [List.getLastD_cons]
        rw [List.getLastD_cons] at ih
        exact (getLastD_eq_of_ne_nil htt (x :: hh) hh).trans ih

theorem fileExtension_of_no_dot {name : String} (h : '.' ∉ name.data) :
    fileExtension name = String.mk ('.' :: name.data.map Char.toLower) := by
  unfold fileExtension
  rw [splitOnChar_of_not_mem h]
  rfl

theorem fileExtension_of_split (name : String) (l₁ l₂ : List Char)
    (hname : name.data = l₁ ++ '.' :: l₂) (h2 : '.' ∉ l₂) :
    fileExtension name = String.mk ('.' :: l₂.map Char.toLower) := by
  unfold fileExtension
  rw [hname, getLastD_splitOnChar_append, splitOnChar_of_not_mem h2]
  rfl

theorem filterIdx_ne_eq (l : List UploadedFile) (k n : Nat) :
    filterIdx (fun i _ => i != k) n l =
      if k < n then l else l.take (k - n) ++ l.drop (k - n + 1) := by
  induction l generalizing n with
  | nil => simp [filterIdx]
  | cons x xs ih =>
    by_cases hk : n = k
    · subst hk
      have hp : (n != n) = false := by simp
      simp only [filterIdx, hp, Bool.false_eq_true, if_false]
      rw [ih (n + 1), if_pos (Nat.lt_succ_self n), if_neg (Nat.lt_irrefl n)]
      simp
    · have hp : (n != k) = true := by simpa using hk
      simp only [filterIdx, hp, if_true]
      rw [ih (n + 1)]
      by_cases hlt : k < n
      · rw [if_pos (by omega : k < n + 1), if_pos hlt]
      · rw [if_neg (by omega : ¬ k < n + 1), if_neg hlt]
        have h1 : k - n = (k - (n + 1)) + 1 := by omega
        rw [h1]
        simp [List.take_succ_cons, List.drop_succ_cons]

theorem removeFile_eq_take_drop (l : List UploadedFile) (k : Nat) :
    removeFile l k = l.take k ++ l.drop (k + 1) := by
  unfold removeFile
  rw [filterIdx_ne_eq, if_neg (Nat.not_lt_zero k)]
  simp

theorem jsRound100_mono {l₁ l₂ : Nat} (t : Nat) (h : l₁ ≤ l₂) :
    jsRound100 l₁ t ≤ jsRound100 l₂ t :=
  Nat.div_le_div_right (by omega)

theorem jsRound100_le_100 {l t : Nat} (ht : 0 < t) (h : l ≤ t) :
    jsRound100 l t ≤ 100 := by
  unfold jsRound100
  have h2 : 0 < 2 * t := by omega
  have h3 : (200 * l + t) / (2 * t) < 101 := by
    rw [Nat.div_lt_iff_lt_mul h2]
    omega
  omega

theorem filterMap_handleProgress (l : List ProgressEvent) :
    l.filterMap handleProgress =
      (l.filter fun e => e.lengthComputable).map
        fun e => jsRound100 e.loaded e.total := by
  induction l with
  | nil => rfl
  | cons e l ih =>
    cases he : e.lengthComputable with
    | true => simp [List.filterMap_cons, List.filter_cons, handleProgress, he, ih]
    | false => simp [List.filterMap_cons, List.filter_cons, handleProgress, he, ih]

/-! ## Claim theorems -/

/-- Claim C1, counterexample: the status 201 lies in [200,299] and the
body is a well-formed acknowledgment with `success` true, yet the
`load` listener does not parse the body: it resolves to the
server-rejected HTTP-status error and appends no record, because the
source tests `xhr.status === 200`, not membership in [200,299]. -/
theorem handleLoad_201_not_parsed :
    200 ≤ 201 ∧ 201 ≤ 299 ∧ sampleAck.success = true ∧
      handleLoad 201 (.ack sampleAck) [] =
        (.resolvedError ⟨.serverRejected, httpFailureMessage 201⟩, []) :=
  ⟨by decide, by decide, rfl, rfl⟩

/-- Claim C1 (amended): the `load` listener parses the response body
exactly when the status equals 200; for every status other than 200 it
resolves, independently of the body, to
`ClassifiedError{ServerRejected}` with message
`"上传失败: HTTP {status}"` ("upload failed: HTTP {status}") containing
the numeric status, and appends no record — while at status 200 the
resolution does depend on the body (the body is parsed). -/
theorem handleLoad_parses_iff_status_200 (status : Nat)
    (files : List UploadedFile) (h : status ≠ 200) :
    (∀ body, handleLoad status body files =
      (.resolvedError ⟨.serverRejected, httpFailureMessage status⟩, files))
    ∧ ∃ b₁ b₂ : ResponseBody,
        (handleLoad 200 b₁ files).1 ≠ (handleLoad 200 b₂ files).1 := by
  constructor
  · intro body
    unfold handleLoad
    rw [if_neg h]
  · refine ⟨.ack sampleAck, .malformed "SyntaxError", ?_⟩
    simp [handleLoad, sampleAck]

/-- Witness for `handleLoad_parses_iff_status_200` at status 404. -/
theorem handleLoad_parses_iff_status_200_witness :
    (404 : Nat) ≠ 200 ∧
      handleLoad 404 (.malformed "x") [] =
        (.resolvedError ⟨.serverRejected, httpFailureMessage 404⟩, []) :=
  ⟨by decide,
    (handleLoad_parses_iff_status_200 404 [] (by decide)).1 (.malformed "x")⟩

/-- Claim C2, counterexample: at status 204 — inside [200,299] — with a
well-formed `success:true` acknowledgment, no TransferRecord is
appended (the aggregator stays empty), because the source only appends
on `xhr.status === 200`. -/
theorem handleLoad_204_no_append :
    200 ≤ 204 ∧ 204 ≤ 299 ∧ sampleAck.success = true ∧
      (handleLoad 204 (.ack sampleAck) []).2 = [] :=
  ⟨by decide, by decide, rfl, rfl⟩

/-- Claim C2 (amended): for every transfer whose response status equals
200 and whose body parses as an acknowledgment with `success` true,
exactly one new record is appended to the end of the aggregator's
sequence, with `project_id` and the `file_info` fields copied verbatim
from the acknowledgment, and the transfer resolves to the
acknowledgment. -/
theorem handleLoad_200_success_appends (r : UploadResponse)
    (files : List UploadedFile) (h : r.success = true) :
    handleLoad 200 (.ack r) files =
      (.resolvedAck r,
        files ++ [{ info := r.file_info, project_id := r.project_id }]) := by
  unfold handleLoad appendRecord
  simp [h]

/-- Witness for `handleLoad_200_success_appends` on `sampleAck`. -/
theorem handleLoad_200_success_appends_witness :
    sampleAck.success = true ∧
      handleLoad 200 (.ack sampleAck) [] =
        (.resolvedAck sampleAck,
          [{ info := sampleAck.file_info,
             project_id := sampleAck.project_id }]) :=
  ⟨rfl, handleLoad_200_success_appends sampleAck [] rfl⟩

/-- Claim C3: a completed transfer whose body parses as an
acknowledgment with `success` false resolves to
`ClassifiedError{ServerRejected}` whose message equals the
acknowledgment's `message` field (the source throws
`new Error(response.message)`, which reaches `onError`), and appends
no record. -/
theorem handleLoad_success_false_message (r : UploadResponse)
    (files : List UploadedFile) (h : r.success = false) :
    handleLoad 200 (.ack r) files =
      (.resolvedError ⟨.serverRejected, r.message⟩, files) := by
  unfold handleLoad
  simp [h]

/-- Witness for `handleLoad_success_false_message` on `sampleFailAck`. -/
theorem handleLoad_success_false_message_witness :
    sampleFailAck.success = false ∧
      handleLoad 200 (.ack sampleFailAck) [] =
        (.resolvedError ⟨.serverRejected, sampleFailAck.message⟩, []) :=
  ⟨rfl, handleLoad_success_false_message sampleFailAck [] rfl⟩

/-- Claim C4, evaluation at the failing input: `".tar.gz"` is a member
of the allow-list and the artifact is far below the size ceiling, yet
`beforeUpload` rejects the artifact as an unsupported type, because the
derived extension is the text after the final dot, `".gz"`, which is
not in the list. -/
theorem tar_gz_rejected_despite_allowlist :
    supportedExtensions.contains ".tar.gz" = true
    ∧ 1024 ≤ maxFileSize
    ∧ fileExtension "project.tar.gz" = ".gz"
    ∧ beforeUpload "project.tar.gz" 1024 =
        .rejectedUnsupportedType ".gz" :=
  ⟨by decide, by decide, by decide, by decide⟩

/-- Claim C5: for every artifact whose derived extension passes the
membership check, `beforeUpload` accepts at byte size exactly
`maxFileSize` (50 × 1024 × 1024), rejects as too large at
`maxFileSize + 1`, and in general rejects as too large precisely when
the size strictly exceeds `maxFileSize`. -/
theorem beforeUpload_size_ceiling (name : String)
    (h : supportedExtensions.contains (fileExtension name) = true) :
    beforeUpload name maxFileSize = .ok
    ∧ beforeUpload name (maxFileSize + 1) = .rejectedTooLarge
    ∧ ∀ size, (beforeUpload name size = .rejectedTooLarge ↔
        maxFileSize < size) := by
  have hm : fileExtension name ∈ supportedExtensions := by simpa using h
  refine ⟨?_, ?_, ?_⟩
  · simp [beforeUpload, hm]
  · simp [beforeUpload, hm]
  · intro size
    by_cases hs : maxFileSize < size <;> simp [beforeUpload, hm, hs]

/-- Witness for `beforeUpload_size_ceiling` at name `"a.cpp"`. -/
theorem beforeUpload_size_ceiling_witness :
    supportedExtensions.contains (fileExtension "a.cpp") = true ∧
      beforeUpload "a.cpp" maxFileSize = .ok :=
  ⟨by decide, (beforeUpload_size_ceiling "a.cpp" (by decide)).1⟩

/-- Claim C6: the derived extension is the dot followed by the
lower-cased text after the final `.` of the display name (for a name
with no `.`, the whole name prefixed by `.`, membership-tested like any
other string); `beforeUpload` rejects with the unsupported-type reason
exactly when that string is not in the allow-list, and the extension
check runs before the size check, short-circuiting on the first failure
(a too-large rejection can only be reported when the extension check
passed). -/
theorem beforeUpload_extension_first (name : String) (size : Nat) :
    (('.' ∉ name.data) →
      fileExtension name = String.mk ('.' :: name.data.map Char.toLower))
    ∧ (∀ l₁ l₂, name.data = l₁ ++ '.' :: l₂ → '.' ∉ l₂ →
        fileExtension name = String.mk ('.' :: l₂.map Char.toLower))
    ∧ (beforeUpload name size = .rejectedUnsupportedType (fileExtension name)
        ↔ supportedExtensions.contains (fileExtension name) = false)
    ∧ (beforeUpload name size = .rejectedTooLarge →
        supportedExtensions.contains (fileExtension name) = true) := by
  refine ⟨fileExtension_of_no_dot, fun l₁ l₂ h1 h2 =>
    fileExtension_of_split name l₁ l₂ h1 h2, ?_, ?_⟩
  · by_cases hc : supportedExtensions.contains (fileExtension name) = true
    · have hm : fileExtension name ∈ supportedExtensions := by simpa using hc
      by_cases hs : maxFileSize < size <;>
        simp [beforeUpload, hm, hs, hc]
    · have hc' : supportedExtensions.contains (fileExtension name) = false := by
        simpa using hc
      have hm : fileExtension name ∉ supportedExtensions := by simpa using hc
      simp [beforeUpload, hm, hc']
  · intro hr
    by_cases hc : supportedExtensions.contains (fileExtension name) = true
    · exact hc
    · have hm : fileExtension name ∉ supportedExtensions := by simpa using hc
      simp [beforeUpload, hm] at hr

/-- Witness for `beforeUpload_extension_first` at the dotless name
`"README"`. -/
theorem beforeUpload_extension_first_witness :
    ('.' ∉ String.data "README") ∧
      fileExtension "README" =
        String.mk ('.' :: (String.data "README").map Char.toLower) :=
  ⟨by decide, (beforeUpload_extension_first "README" 1).1 (by decide)⟩

/-- Claim C8: every failed submission of any kind — policy rejection,
transport failure, non-success status, malformed acknowledgment,
acknowledgment with `success` false, or a synchronous exception —
leaves the aggregator's sequence exactly as it was before the attempt;
no record, partial or complete, is created on any failure path. -/
theorem no_record_on_failure (name : String) (size : Nat)
    (tk : TerminalKind) (files : List UploadedFile)
    (h : isFailureResult (submitArtifact name size tk files).1 = true) :
    (submitArtifact name size tk files).2 = files := by
  unfold submitArtifact at h ⊢
  cases hv : beforeUpload name size with
  | ok =>
    cases tk with
    | load status body =>
      by_cases hs : status = 200
      · subst hs
        cases body with
        | ack r =>
          cases hr : r.success
          · simp [runTerminal, handleLoad, hr]
          · rw [hv] at h
            simp [runTerminal, handleLoad, hr, isFailureResult] at h
        | malformed m => simp [runTerminal, handleLoad]
      · simp [runTerminal, handleLoad, hs]
    | transportError => simp [runTerminal]
    | syncException m => simp [runTerminal]
  | rejectedUnsupportedType e => rfl
  | rejectedTooLarge => rfl

/-- Witness for `no_record_on_failure`: a policy-rejected artifact
leaves the (empty) aggregator empty. -/
theorem no_record_on_failure_witness :
    isFailureResult
        (submitArtifact "payload.exe" 10
          (.load 200 (.ack sampleAck)) []).1 = true ∧
      (submitArtifact "payload.exe" 10
        (.load 200 (.ack sampleAck)) []).2 = [] :=
  ⟨by decide,
    no_record_on_failure "payload.exe" 10
      (.load 200 (.ack sampleAck)) [] (by decide)⟩

/-- Claim C9: for a sequence of `n` records, `removeFile` at an index
`i < n` yields the sequence of length `n - 1` made of the elements
before position `i` followed by those after it — the element formerly
at `i` is absent and all others keep their relative order — and at any
out-of-range index it returns the sequence unchanged (no error is
reported; the function is total). -/
theorem removeFile_spec (l : List UploadedFile) (i : Nat) :
    (i < l.length →
      removeFile l i = l.take i ++ l.drop (i + 1)
      ∧ (removeFile l i).length = l.length - 1)
    ∧ (l.length ≤ i → removeFile l i = l) := by
  have heq := removeFile_eq_take_drop l i
  constructor
  · intro hi
    refine ⟨heq, ?_⟩
    rw [heq, List.length_append, List.length_take, List.length_drop]
    omega
  · intro hi
    rw [heq, List.take_of_length_le hi,
      List.drop_eq_nil_of_le (by omega), List.append_nil]

/-- Witness for `removeFile_spec` on a three-record list, at the
in-range index 1 and the out-of-range index 7. -/
theorem removeFile_spec_witness :
    (1 < sampleFiles.length ∧
      (removeFile sampleFiles 1).length = sampleFiles.length - 1)
    ∧ (sampleFiles.length ≤ 7 ∧ removeFile sampleFiles 7 = sampleFiles) :=
  ⟨⟨by decide, ((removeFile_spec sampleFiles 1).1 (by decide)).2⟩,
   ⟨by decide, (removeFile_spec sampleFiles 7).2 (by decide)⟩⟩

/-- Claim C10: starting a transfer sets the in-flight flag and resets
the progress value to 0 before any progress tick, and every terminal
stimulus — completed request of any status and body (successful
acknowledgment, non-200 status, parse failure, `success:false`),
transport error, or synchronous exception — restores the in-flight
flag to false and the progress value to 0. -/
theorem engine_state_reset (s : EngineState) (tk : TerminalKind) :
    (startTransfer s).uploading = true
    ∧ (startTransfer s).uploadProgress = 0
    ∧ (startTransfer s).uploadedFiles = s.uploadedFiles
    ∧ (stepTerminal s tk).1.uploading = false
    ∧ (stepTerminal s tk).1.uploadProgress = 0 := by
  rcases h : runTerminal tk s.uploadedFiles with ⟨out, fs⟩
  exact ⟨rfl, rfl, rfl, by simp [stepTerminal, h], by simp [stepTerminal, h]⟩

/-- Claim C7: within one transfer — under the XHR environment
guarantees that computable-length progress events share one positive
total and report non-decreasing loaded byte counts bounded by that
total — each emitted progress update equals `round(loaded/total*100)`
and is emitted only for events with a computable length (no ticks
otherwise); the emitted percentages form a non-decreasing sequence
bounded in [0,100] (the lower bound holds in `Nat`); and the event
sequence delivered to the caller is the progress callbacks followed by
exactly one terminal event, which is its last element, with nothing
after it. -/
theorem progress_sequence (tr : TransferTrace) (files : List UploadedFile)
    (t : Nat) (ht : 0 < t)
    (htotal : ∀ e ∈ tr.progressEvents, e.lengthComputable = true →
      e.total = t ∧ e.loaded ≤ t)
    (hmono : List.Pairwise (fun a b => a.loaded ≤ b.loaded)
      (tr.progressEvents.filter fun e => e.lengthComputable)) :
    progressPercents tr =
      (tr.progressEvents.filter fun e => e.lengthComputable).map
        (fun e => jsRound100 e.loaded e.total)
    ∧ List.Pairwise (· ≤ ·) (progressPercents tr)
    ∧ (∀ p ∈ progressPercents tr, p ≤ 100)
    ∧ emittedEvents tr files =
        (progressPercents tr).map EmittedEvent.progress
          ++ [terminalEvent tr.terminal files]
    ∧ (terminalEvent tr.terminal files).isTerminal = true
    ∧ ((emittedEvents tr files).countP fun ev => ev.isTerminal) = 1
    ∧ (emittedEvents tr files).getLast? =
        some (terminalEvent tr.terminal files) := by
  have hpercents : progressPercents tr =
      (tr.progressEvents.filter fun e => e.lengthComputable).map
        (fun e => jsRound100 e.loaded e.total) := by
    unfold progressPercents
    exact filterMap_handleProgress tr.progressEvents
  have hR : List.Pairwise
      (fun a b : ProgressEvent =>
        jsRound100 a.loaded a.total ≤ jsRound100 b.loaded b.total)
      (tr.progressEvents.filter fun e => e.lengthComputable) := by
    refine hmono.imp_of_mem ?_
    intro a b ha hb hab
    obtain ⟨ha1, ha2⟩ := List.mem_filter.mp ha
    obtain ⟨hb1, hb2⟩ := List.mem_filter.mp hb
    obtain ⟨hat, _⟩ := htotal a ha1 ha2
    obtain ⟨hbt, _⟩ := htotal b hb1 hb2
    rw [hat, hbt]
    exact jsRound100_mono t hab
  have hmap : List.Pairwise (fun x y : Nat => x ≤ y)
      ((tr.progressEvents.filter fun e => e.lengthComputable).map
        fun e => jsRound100 e.loaded e.total) :=
    List.Pairwise.map _ (fun a b h => h) hR
  have hemit : emittedEvents tr files =
      (progressPercents tr).map EmittedEvent.progress
        ++ [terminalEvent tr.terminal files] := by
    unfold emittedEvents progressPercents
    rw [List.map_filterMap]
  have hterm : (terminalEvent tr.terminal files).isTerminal = true := by
    unfold terminalEvent
    cases h : (runTerminal tr.terminal files).1 <;> rfl
  refine ⟨hpercents, ?_, ?_, hemit, hterm, ?_, ?_⟩
  · rw [hpercents]
    exact hmap
  · intro p hp
    rw [hpercents] at hp
    obtain ⟨e, he, rfl⟩ := List.mem_map.mp hp
    obtain ⟨he1, he2⟩ := List.mem_filter.mp he
    obtain ⟨het, hel⟩ := htotal e he1 he2
    rw [het]
    exact jsRound100_le_100 ht hel
  · rw [hemit, List.countP_append]
    have h0 : (((progressPercents tr).map EmittedEvent.progress).countP
        fun ev => ev.isTerminal) = 0 := by
      rw [List.countP_eq_zero]
      intro a ha
      obtain ⟨p, _, rfl⟩ := List.mem_map.mp ha
      simp [EmittedEvent.isTerminal]
    rw [h0]
    simp [List.countP_cons, hterm]
  · rw [hemit]
    exact List.getLast?_concat _

/-- Witness for `progress_sequence` on the sample trace with total
100. -/
theorem progress_sequence_witness :
    (0 : Nat) < 100 ∧ List.Pairwise (· ≤ ·) (progressPercents sampleTrace) :=
  ⟨by decide,
    (progress_sequence sampleTrace [] 100 (by decide) (by decide)
      (by decide)).2.1⟩

end UploadPipeline
